import Mathlib

/-!
Verification of the taro job-execution core against its specification.

The definitions below are a shallow embedding of the repository's Python
sources:

* `src/taro/jobs/runner.py` — `RunnerJobInstance` (admission loop, state
  recording, stop/release, prioritized observer fan-out),
* `src/src/tarotools/taro/process.py` — `ProcessExecution.execute` outcome
  mapping and `_CapturingWriter.write`,
* `src/taro/jobs/job.py` — `JobInfo.__init__` status truncation
  (via Python's `textwrap.shorten`).

The modules `taro/jobs/execution.py` and `taro/jobs/sync.py` are not part of
the provided sources; the types they define (`ExecutionState`,
`ExecutionLifecycleManagement`, `Signal`, the synchronization strategies) are
modelled from the specification, and each such definition is marked
`Modelled from the spec:` in its doc comment.

Machine-level details that no claim depends on (timestamps, logging text,
thread identity) are omitted; every effect a claim mentions (persistence
hand-off, observer notification, snapshot creation, backend invocation) is
tracked explicitly in the state records.
-/

/- ----------------------------------------------------------------- -/
/- Execution states (taro/jobs/execution.py is not in src)           -/
/- ----------------------------------------------------------------- -/

/-- Modelled from the spec: `ExecutionState` is the closed enumeration of
section 3 of the specification (`taro/jobs/execution.py` is not among the
provided sources): not-yet-started `CREATED`, waiting `PENDING`, actively
running `TRIGGERED` and `RUNNING`, and the terminal states. -/
inductive ExecutionState where
  | CREATED
  | PENDING
  | TRIGGERED
  | RUNNING
  | COMPLETED
  | FAILED
  | ERROR
  | STOPPED
  | INTERRUPTED
  | CANCELLED
  | DEPENDENCY_NOT_RUNNING
  deriving DecidableEq, Repr

/-- Modelled from the spec: `is_terminal` answers whether the state is one of
the terminal states (spec section 3). -/
def ExecutionState.is_terminal : ExecutionState → Bool
  | .COMPLETED => true
  | .FAILED => true
  | .ERROR => true
  | .STOPPED => true
  | .INTERRUPTED => true
  | .CANCELLED => true
  | .DEPENDENCY_NOT_RUNNING => true
  | _ => false

/-- Modelled from the spec: `is_waiting` answers whether the state is a
pending/waiting-for-admission state (spec section 3). -/
def ExecutionState.is_waiting : ExecutionState → Bool
  | .PENDING => true
  | _ => false

/- ----------------------------------------------------------------- -/
/- Lifecycle (taro/jobs/execution.py is not in src)                  -/
/- ----------------------------------------------------------------- -/

/-- The ordered record of recorded states, most recent last.  Timestamps are
omitted: no claim refers to them. -/
abbrev Lifecycle := List ExecutionState

/-- The current state: the most recently recorded one, if any. -/
def Lifecycle.state (lc : Lifecycle) : Option ExecutionState :=
  lc.getLast?

/-- Modelled from the spec: `ExecutionLifecycleManagement.set_state` from
`taro/jobs/execution.py` (not among the provided sources).  Spec section 4.1:
it returns whether a transition actually occurred, and reports no transition
when the new state equals the current state or the instance is already
terminal; on a real transition the state is appended to the record. -/
def Lifecycle.set_state (lc : Lifecycle) (new_state : ExecutionState) :
    Lifecycle × Bool :=
  match lc.getLast? with
  | none => (lc ++ [new_state], true)
  | some cur =>
      if new_state = cur ∨ cur.is_terminal then (lc, false)
      else (lc ++ [new_state], true)

/- ----------------------------------------------------------------- -/
/- Synchronization strategies (taro/jobs/sync.py is not in src)      -/
/- ----------------------------------------------------------------- -/

/-- Modelled from the spec: the admission-control `Signal` of spec section 3:
`NONE` (contract violation), `CONTINUE` (admit), `WAIT` (block), `TERMINATE`
(abort). -/
inductive Signal where
  | NONE
  | CONTINUE
  | WAIT
  | TERMINATE
  deriving DecidableEq, Repr

/-- Modelled from the spec: the synchronization strategies of spec section 3
(`taro/jobs/sync.py` is not among the provided sources): a no-op strategy
always signalling `CONTINUE`; a latch that blocks (`WAIT`, recording its
waiting state) until released; a composite that adopts the first
non-`CONTINUE` result of its ordered children (represented here as a nested
pair, which is how the runner builds it: `CompositeSync((latch, sync))`). -/
inductive SyncStrategy where
  | noSync
  | latch (exec_state : ExecutionState) (released : Bool)
  | composite2 (first second : SyncStrategy)
  deriving DecidableEq, Repr

/-- Modelled from the spec: the strategy's control signal for the current
evaluation (spec section 3). -/
def SyncStrategy.set_signal : SyncStrategy → Signal
  | .noSync => .CONTINUE
  | .latch _ released => if released then .CONTINUE else .WAIT
  | .composite2 first second =>
      if first.set_signal = Signal.CONTINUE then second.set_signal
      else first.set_signal

/-- Modelled from the spec: the state a non-`CONTINUE` strategy asks the
runner to record (spec section 3); `none` when the strategy signals
`CONTINUE` and no such state exists. -/
def SyncStrategy.exec_state? : SyncStrategy → Option ExecutionState
  | .noSync => none
  | .latch st released => if released then none else some st
  | .composite2 first second =>
      if first.set_signal = Signal.CONTINUE then second.exec_state?
      else first.exec_state?

/-- Modelled from the spec: `release()` unblocks the strategy's waiting
primitive; on a composite it releases every child. -/
def SyncStrategy.release : SyncStrategy → SyncStrategy
  | .noSync => .noSync
  | .latch st _ => .latch st true
  | .composite2 first second => .composite2 first.release second.release

/- ----------------------------------------------------------------- -/
/- Execution errors and the execution backend interface              -/
/- ----------------------------------------------------------------- -/

/-- The `ExecutionError` as used by `runner.py`: it carries the terminal state to
record and whether it wraps an unexpected (non-`ExecutionError`) exception. -/
structure ExecutionError where
  message : String
  exec_state : ExecutionState
  unexpected_error : Bool
  deriving DecidableEq, Repr

/-- Method `ExecutionError.from_unexpected_error` wraps a foreign exception as an
unexpected error with terminal state `ERROR`. -/
def ExecutionError.from_unexpected_error (message : String) : ExecutionError :=
  { message := message, exec_state := ExecutionState.ERROR,
    unexpected_error := true }

/-- What the backend's `execute()` call does when it is finally invoked:
returns a new state, raises an `ExecutionError`, raises some other
exception, or raises `SystemExit` (the four cases `RunnerJobInstance.run`
distinguishes). -/
inductive ExecOutcome where
  | returnsState (st : ExecutionState)
  | raisesExec (e : ExecutionError)
  | raisesOther (message : String)
  | systemExit (code : Int)
  deriving DecidableEq, Repr

/-- The execution backend as seen by the runner: whether it is asynchronous
(decides `TRIGGERED` versus `RUNNING`) and what its `execute()` does. -/
structure Execution where
  is_async : Bool
  outcome : ExecOutcome
  deriving DecidableEq, Repr

/- ----------------------------------------------------------------- -/
/- RunnerJobInstance state (taro/jobs/runner.py)                     -/
/- ----------------------------------------------------------------- -/

/-- The mutable state of a `RunnerJobInstance`, plus explicit instrumentation
fields recording the externally visible effects (backend invocation, output
observer registration, backend stop/interrupt forwarding). -/
structure RunnerJobInstance where
  pending_value : Option String
  latchReleased : Bool
  userSync : SyncStrategy
  depends_on : List String
  lifecycle : Lifecycle
  exec_error : Option ExecutionError
  stopped_or_interrupted : Bool
  executing : Bool
  executeInvoked : Bool
  executionStopInvoked : Bool
  executionInterruptInvoked : Bool
  outputObserverAdded : Bool
  propagatedSystemExit : Bool
  deriving DecidableEq, Repr

/-- Python truthiness of the optional pending value: `None` and the empty
string are falsy. -/
def truthyOpt : Option String → Bool
  | none => false
  | some s => s ≠ ""

/-- The instance's effective synchronization strategy: `__init__` wraps the
user strategy in `CompositeSync((Latch(PENDING), sync))` when a truthy
`pending_value` was supplied, else uses the user strategy alone. -/
def RunnerJobInstance.effectiveSync (r : RunnerJobInstance) : SyncStrategy :=
  if truthyOpt r.pending_value then
    SyncStrategy.composite2
      (SyncStrategy.latch ExecutionState.PENDING r.latchReleased) r.userSync
  else r.userSync

/-- The effects of one `_state_change` call, reported separately from the
updated state: whether a transition occurred, whether a `JobInfo` snapshot
was built, whether the snapshot was handed to persistence, and whether state
observers were notified. -/
structure StateChangeReport where
  changed : Bool
  snapshotBuilt : Bool
  persisted : Bool
  notified : Bool
  deriving DecidableEq, Repr

/-- Method `RunnerJobInstance._state_change`: store the accompanying error if any,
attempt `set_state`; on a real transition build a snapshot, hand it to
persistence when the new state is terminal and persistence is enabled, and
notify state observers; otherwise none of those effects happen.
`persistenceEnabled` stands for `persistence.is_enabled()`. -/
def RunnerJobInstance.state_change (r : RunnerJobInstance)
    (persistenceEnabled : Bool) (new_state : ExecutionState)
    (err : Option ExecutionError) : RunnerJobInstance × StateChangeReport :=
  let r1 := match err with
    | some e => { r with exec_error := some e }
    | none => r
  let result := r1.lifecycle.set_state new_state
  if result.2 then
    ({ r1 with lifecycle := result.1 },
     { changed := true, snapshotBuilt := true,
       persisted := new_state.is_terminal && persistenceEnabled,
       notified := true })
  else
    (r1, { changed := false, snapshotBuilt := false, persisted := false,
           notified := false })

/-- Constructor `RunnerJobInstance.__init__`: record the construction parameters and
record state `CREATED`. -/
def RunnerJobInstance.init (pending_value : Option String)
    (sync : SyncStrategy) (depends_on : List String)
    (persistenceEnabled : Bool) : RunnerJobInstance :=
  let base : RunnerJobInstance :=
    { pending_value := pending_value, latchReleased := false,
      userSync := sync, depends_on := depends_on, lifecycle := [],
      exec_error := none, stopped_or_interrupted := false, executing := false,
      executeInvoked := false, executionStopInvoked := false,
      executionInterruptInvoked := false, outputObserverAdded := false,
      propagatedSystemExit := false }
  (base.state_change persistenceEnabled ExecutionState.CREATED none).1

/-- Method `RunnerJobInstance.release`: returns `False` when the instance has no
truthy pending value or when a truthy non-matching group is supplied;
otherwise releases the latch and returns `True`. -/
def RunnerJobInstance.release (r : RunnerJobInstance)
    (pending_value : Option String) : RunnerJobInstance × Bool :=
  if ¬ truthyOpt r.pending_value ∨
      (truthyOpt pending_value ∧ pending_value ≠ r.pending_value) then
    (r, false)
  else
    ({ r with latchReleased := true }, true)

/-- Method `RunnerJobInstance.stop`: set the stop flag, release the synchronization
strategy (latch included), and forward to the backend's `stop` only when
execution has already begun. -/
def RunnerJobInstance.stop (r : RunnerJobInstance) : RunnerJobInstance :=
  let r1 := { r with stopped_or_interrupted := true,
                     latchReleased := true,
                     userSync := r.userSync.release }
  if r1.executing then { r1 with executionStopInvoked := true } else r1

/-- One iteration of `RunnerJobInstance._synchronize` under the global state
lock: a stop/interrupt request takes precedence (signal `TERMINATE`, state
`CANCELLED`); otherwise the strategy is consulted — `NONE` is a contract
violation (the `assert False`, modelled as a raised exception), `CONTINUE`
records `TRIGGERED`/`RUNNING`, and any other signal records the strategy's
state after validating it is a waiting or terminal state (else
`UnexpectedStateError` is raised).  `Except.error` carries the instance at
the point the exception escaped. -/
def RunnerJobInstance.syncIteration (r : RunnerJobInstance)
    (persistenceEnabled : Bool) (ex : Execution) :
    Except RunnerJobInstance (RunnerJobInstance × Signal) :=
  if r.stopped_or_interrupted then
    Except.ok ((r.state_change persistenceEnabled ExecutionState.CANCELLED none).1,
      Signal.TERMINATE)
  else
    let signal := r.effectiveSync.set_signal
    if signal = Signal.NONE then Except.error r
    else if signal = Signal.CONTINUE then
      let st := if ex.is_async then ExecutionState.TRIGGERED
                else ExecutionState.RUNNING
      Except.ok ((r.state_change persistenceEnabled st none).1, Signal.CONTINUE)
    else
      match r.effectiveSync.exec_state? with
      | some st =>
          if st.is_waiting = true ∨ st.is_terminal = true then
            Except.ok ((r.state_change persistenceEnabled st none).1, signal)
          else Except.error r
      | none => Except.error r

/-- The result of `RunnerJobInstance._synchronize`: admitted (`True`),
terminated (`False`), an exception escaped, or the model's fuel ran out while
the thread was still blocked in a `WAIT` cycle. -/
inductive SyncResult where
  | admitted (r : RunnerJobInstance)
  | terminated (r : RunnerJobInstance)
  | raised (r : RunnerJobInstance)
  | outOfFuel (r : RunnerJobInstance)
  deriving DecidableEq, Repr

/-- Method `RunnerJobInstance._synchronize`: repeat the admission iteration;
`WAIT` blocks and re-evaluates (here: consumes one unit of fuel, the model of
a blocked thread being woken), `TERMINATE` returns `False`, and `CONTINUE`
marks the instance executing and returns `True`. -/
def RunnerJobInstance.synchronize (persistenceEnabled : Bool)
    (ex : Execution) : Nat → RunnerJobInstance → SyncResult
  | 0, r => SyncResult.outOfFuel r
  | Nat.succ fuel, r =>
      match r.syncIteration persistenceEnabled ex with
      | Except.error r2 => SyncResult.raised r2
      | Except.ok (r2, Signal.WAIT) =>
          RunnerJobInstance.synchronize persistenceEnabled ex fuel r2
      | Except.ok (r2, Signal.TERMINATE) => SyncResult.terminated r2
      | Except.ok (r2, _) => SyncResult.admitted { r2 with executing := true }

/-- Method `RunnerJobInstance.run`: synchronize (an exception there records `ERROR`);
on admission, when dependencies are declared, query the job directory
(`taro.client.read_jobs_info()`, an external collaborator modelled as the
`jobsInfo` argument) — no match records `DEPENDENCY_NOT_RUNNING` and returns,
a failed query is logged and execution proceeds; then register the output
observer, invoke the backend and map its outcome to a state change
(`SystemExit` re-raises after its state is recorded). -/
def RunnerJobInstance.run (persistenceEnabled : Bool) (ex : Execution)
    (jobsInfo : Except String (List String))
    (matchesDep : String → String → Bool) (fuel : Nat)
    (r : RunnerJobInstance) : RunnerJobInstance :=
  match RunnerJobInstance.synchronize persistenceEnabled ex fuel r with
  | SyncResult.raised r2 =>
      (r2.state_change persistenceEnabled ExecutionState.ERROR none).1
  | SyncResult.terminated r2 => r2
  | SyncResult.outOfFuel r2 => r2
  | SyncResult.admitted r2 =>
      let depStop : Option RunnerJobInstance :=
        if r2.depends_on = [] then none
        else
          match jobsInfo with
          | Except.ok jobs =>
              if jobs.any
                  (fun j => r2.depends_on.any (fun d => matchesDep j d)) then
                none
              else
                some (r2.state_change persistenceEnabled
                  ExecutionState.DEPENDENCY_NOT_RUNNING none).1
          | Except.error _ => none
      match depStop with
      | some r3 => r3
      | none =>
          let r4 := { r2 with outputObserverAdded := true,
                              executeInvoked := true }
          match ex.outcome with
          | ExecOutcome.returnsState st =>
              (r4.state_change persistenceEnabled st none).1
          | ExecOutcome.raisesExec e =>
              (r4.state_change persistenceEnabled e.exec_state (some e)).1
          | ExecOutcome.raisesOther msg =>
              let e := ExecutionError.from_unexpected_error msg
              (r4.state_change persistenceEnabled e.exec_state (some e)).1
          | ExecOutcome.systemExit code =>
              let st := if code = 0 then ExecutionState.COMPLETED
                        else ExecutionState.FAILED
              { (r4.state_change persistenceEnabled st none).1 with
                  propagatedSystemExit := true }

/- ----------------------------------------------------------------- -/
/- Prioritized observer registries (taro/jobs/runner.py)             -/
/- ----------------------------------------------------------------- -/

/-- Insert one prioritized entry into an already-built sequence, after every
entry whose priority is less than or equal to its own. -/
def insertPrioritized {α : Type} (p : Int × α) :
    List (Int × α) → List (Int × α)
  | [] => [p]
  | q :: qs => if q.1 ≤ p.1 then q :: insertPrioritized p qs
               else p :: q :: qs

/-- Python's `sorted(seq, key=itemgetter(0))` is a stable sort by priority;
a stable insertion sort computes the same list. -/
def pySortedByPriority {α : Type} (l : List (Int × α)) : List (Int × α) :=
  l.foldl (fun acc x => insertPrioritized x acc) []

/-- Function `_add_prioritized`: re-sort (stably) the sequence extended with the new
`(priority, item)` entry. -/
def add_prioritized {α : Type} (prioritized_seq : List (Int × α))
    (priority : Int) (item : α) : List (Int × α) :=
  pySortedByPriority (prioritized_seq ++ [(priority, item)])

/-- Function `_remove_prioritized`: rebuild the sequence without the given item. -/
def remove_prioritized {α : Type} [DecidableEq α]
    (prioritized_seq : List (Int × α)) (item : α) : List (Int × α) :=
  prioritized_seq.filter (fun q => q.2 ≠ item)

/-- Function `_gen_prioritized`: chain the given prioritized sequences (the
per-instance one first, then the process-wide one) and yield the items —
a concatenation, not a merge. -/
def gen_prioritized {α : Type} (seq1 seq2 : List (Int × α)) : List α :=
  (seq1 ++ seq2).map Prod.snd

/-- Constant `DEFAULT_OBSERVER_PRIORITY` from `taro/jobs/job.py`. -/
def DEFAULT_OBSERVER_PRIORITY : Int := 100

/-- Follows the claim's words (C3), for comparison with `gen_prioritized`:
one priority-ordered sequence merged across both registries. -/
def claimedMergedFanout {α : Type} (seq1 seq2 : List (Int × α)) : List α :=
  (pySortedByPriority (seq1 ++ seq2)).map Prod.snd

/- ----------------------------------------------------------------- -/
/- Observer fan-out (taro/jobs/runner.py)                            -/
/- ----------------------------------------------------------------- -/

/-- How a registered listener is classified by the dispatch code: an object
exposing the channel's callback method, a bare callable, or neither. -/
inductive ObserverKind where
  | typed
  | callableObserver
  | unclassified
  deriving DecidableEq, Repr

/-- A listener as the fan-out loop sees it: an identifier, its dispatch
classification, and whether its callback raises when invoked. -/
structure Observer where
  oid : Nat
  kind : ObserverKind
  raisesOnCall : Bool
  deriving DecidableEq, Repr

/-- The observable events of one fan-out: a listener's callback was invoked,
a raised exception was caught and logged, or an unsupported listener was
logged. -/
inductive NotifyEvent where
  | invoked (oid : Nat)
  | loggedException (oid : Nat)
  | loggedUnsupported (oid : Nat)
  deriving DecidableEq, Repr

/-- Calling the listener's callback: returns normally or raises. -/
def Observer.invoke (o : Observer) : Except Nat Unit :=
  if o.raisesOnCall then Except.error o.oid else Except.ok ()

/-- The fan-out loop shared by `_notify_state_observers`,
`_notify_warning_observers` and `_notify_output_observers` (the three
methods are textually identical up to the callback invoked): dispatch each
listener in sequence; a raised exception is caught and logged
(`except BaseException: log.exception(...)`) and iteration continues; an
unclassifiable listener is logged.  The `Except` result type is the
exception channel of the caller: an uncaught exception would surface as
`Except.error`. -/
def notify_observers : List Observer → Except Nat (List NotifyEvent)
  | [] => Except.ok []
  | o :: rest =>
      let events :=
        match o.kind with
        | ObserverKind.unclassified => [NotifyEvent.loggedUnsupported o.oid]
        | _ =>
            match o.invoke with
            | Except.ok _ => [NotifyEvent.invoked o.oid]
            | Except.error i =>
                [NotifyEvent.invoked o.oid, NotifyEvent.loggedException i]
      match notify_observers rest with
      | Except.ok evs => Except.ok (events ++ evs)
      | Except.error i => Except.error i

/-- The events a single listener contributes to a fan-out. -/
def Observer.events (o : Observer) : List NotifyEvent :=
  match o.kind with
  | ObserverKind.unclassified => [NotifyEvent.loggedUnsupported o.oid]
  | _ =>
      match o.invoke with
      | Except.ok _ => [NotifyEvent.invoked o.oid]
      | Except.error i =>
          [NotifyEvent.invoked o.oid, NotifyEvent.loggedException i]

/- ----------------------------------------------------------------- -/
/- ProcessExecution outcome mapping (tarotools/taro/process.py)      -/
/- ----------------------------------------------------------------- -/

/-- Value of `signal.SIGINT` on the platforms the code targets. -/
def SIGINT : Int := 2

/-- The execution results `ProcessExecution.execute` can return. -/
inductive ExecutionResult where
  | DONE
  | STOPPED
  | INTERRUPTED
  deriving DecidableEq, Repr

/-- The outcome mapping of `ProcessExecution.execute` for a child process
that was started (both flags were unset on entry) and has completed with
`exitcode`; `stopped` and `interrupted` are the values of the instance flags
at the post-join checks.  Following the source order: exit code `0` returns
`DONE`; then `interrupted or exitcode == -signal.SIGINT` returns
`INTERRUPTED`; then `stopped or exitcode < 0` returns `STOPPED`; otherwise
an `ExecutionException` carrying the nonzero code is raised. -/
def ProcessExecution.execute (stopped interrupted : Bool) (exitcode : Int) :
    Except Int ExecutionResult :=
  if exitcode = 0 then Except.ok ExecutionResult.DONE
  else if interrupted = true ∨ exitcode = -SIGINT then
    Except.ok ExecutionResult.INTERRUPTED
  else if stopped = true ∨ exitcode < 0 then
    Except.ok ExecutionResult.STOPPED
  else Except.error exitcode

/-- Follows the claim's words (C2), for comparison with
`ProcessExecution.execute`: the cases in the order the claim lists them —
exit code 0 completed; a negative exit code after `stop()` stopped; the
designated interrupt condition interrupted; any other nonzero code an
execution error carrying the code. -/
def claimedProcessOutcome (stopped interrupted : Bool) (exitcode : Int) :
    Except Int ExecutionResult :=
  if exitcode = 0 then Except.ok ExecutionResult.DONE
  else if exitcode < 0 ∧ stopped = true then Except.ok ExecutionResult.STOPPED
  else if interrupted = true ∨ exitcode = -SIGINT then
    Except.ok ExecutionResult.INTERRUPTED
  else Except.error exitcode

/- ----------------------------------------------------------------- -/
/- _CapturingWriter (tarotools/taro/process.py)                      -/
/- ----------------------------------------------------------------- -/

/-- Python whitespace as stripped by `str.rstrip()` (the ASCII whitespace
characters; the code never writes the rarer Unicode ones). -/
def isPyWs (c : Char) : Bool :=
  c = ' ' ∨ c = '\t' ∨ c = '\n' ∨ c = '\r' ∨ c = '\x0b' ∨ c = '\x0c'

/-- Python `str.rstrip()`: drop trailing whitespace. -/
def pyRstrip (s : List Char) : List Char :=
  (s.reverse.dropWhile isPyWs).reverse

/-- Capacity of `multiprocessing.Queue(maxsize=2048)` as created by
`ProcessExecution.__init__`. -/
def processOutputQueueCapacity : Nat := 2048

/-- The child-side writer's state: the bounded queue it feeds (with its
capacity; `put_nowait` raises `queue.Full` exactly when the queue holds
`capacity` messages), the stream-origin flag, the wrapped original stream's
received writes, and how many queue-full warnings were logged. -/
structure CapturingWriter where
  capacity : Nat
  is_err : Bool
  queue : List (List Char × Bool)
  outStream : List (List Char)
  fullWarningsLogged : Nat
  deriving DecidableEq, Repr

/-- Method `_CapturingWriter.write`: strip trailing whitespace; if something
remains, try `put_nowait((text_s, is_err))`, and on `queue.Full` log a
warning instead; finally always forward the original text to the wrapped
stream.  The function is total: no exception escapes. -/
def CapturingWriter.write (w : CapturingWriter) (text : List Char) :
    CapturingWriter :=
  let text_s := pyRstrip text
  let w1 :=
    if text_s ≠ [] then
      if w.queue.length < w.capacity then
        { w with queue := w.queue ++ [(text_s, w.is_err)] }
      else
        { w with fullWarningsLogged := w.fullWarningsLogged + 1 }
    else w
  { w1 with outStream := w1.outStream ++ [text] }

/- ----------------------------------------------------------------- -/
/- JobInfo status truncation (taro/jobs/job.py, textwrap.shorten)    -/
/- ----------------------------------------------------------------- -/

/-- Python `str.split()`: the maximal runs of non-whitespace characters
(`acc` accumulates the current run, reversed). -/
def pySplitGo : List Char → List Char → List (List Char)
  | [], acc => if acc = [] then [] else [acc.reverse]
  | c :: cs, acc =>
      if isPyWs c then
        if acc = [] then pySplitGo cs [] else acc.reverse :: pySplitGo cs []
      else pySplitGo cs (c :: acc)

/-- Python `text.strip().split()`: the whitespace-separated words of the text. -/
def pySplit (s : List Char) : List (List Char) := pySplitGo s []

/-- The single-space separator chunk produced by joining words with
`' '.join` and re-splitting into wrap chunks. -/
def spaceChunk : List Char := [' ']

/-- A chunk that `str.strip()` reduces to the empty string. -/
def isSpaceChunk (c : List Char) : Bool := c.all isPyWs

/-- Total character length of a chunk sequence. -/
def chunksLen (l : List (List Char)) : Nat := (l.map List.length).sum

/-- The greedy chunk loop of `TextWrapper._wrap_chunks`: take chunks while
they fit in `width`, returning the current line and the remaining chunks. -/
def greedyLine (width : Nat) : List (List Char) → Nat → List (List Char) →
    List (List Char) × List (List Char)
  | [], _, acc => (acc.reverse, [])
  | c :: cs, len, acc =>
      if len + c.length ≤ width then greedyLine width cs (len + c.length) (c :: acc)
      else (acc.reverse, c :: cs)

/-- The truncation loop of `TextWrapper._wrap_chunks` under `max_lines`:
walking the current line from its end (the argument is the reversed line),
drop trailing chunks until the kept prefix ends in a non-whitespace chunk
and fits together with the placeholder; `none` when nothing fits (the
caller then falls back to the bare placeholder). -/
def truncGo (width : Nat) (ph : List Char) :
    List (List Char) → Option (List Char)
  | [] => none
  | c :: rest =>
      if isSpaceChunk c = false ∧ chunksLen (c :: rest) + ph.length ≤ width then
        some (((c :: rest).reverse).flatten ++ ph)
      else truncGo width ph rest

/-- Step `_handle_long_word` with `break_long_words=False`: a remaining first
chunk longer than `width` goes whole onto the (still empty) current line. -/
def adjustLongWord (width : Nat)
    (g : List (List Char) × List (List Char)) :
    List (List Char) × List (List Char) :=
  match g.2 with
  | c :: cs => if width < c.length ∧ g.1 = [] then ([c], cs) else g
  | [] => g

/-- The `drop_whitespace` handling in `_wrap_chunks`: if the last chunk of the
current line is all whitespace, drop it. -/
def dropTrailingSpaceChunk (line : List (List Char)) : List (List Char) :=
  match line.getLast? with
  | some c => if isSpaceChunk c then line.dropLast else line
  | none => line

/-- The `max_lines` branch condition of `_wrap_chunks`: the remaining chunks
are exhausted, or a single all-whitespace chunk remains
(`not chunks or (drop_whitespace and len(chunks) == 1 and not
chunks[-1].strip())`). -/
def restEffectivelyEmpty (rest : List (List Char)) : Bool :=
  match rest with
  | [] => true
  | [c] => isSpaceChunk c
  | _ => false

/-- The tail of `_wrap_chunks` under `max_lines=1`: when the rest is
effectively empty and the line fits, the line is emitted as is; otherwise
the truncation loop appends the placeholder, falling back to the bare
placeholder (`.lstrip()`-ed; the placeholder used here has no leading
whitespace) when nothing fits. -/
def lineResult (width : Nat) (ph : List Char)
    (line rest : List (List Char)) : List Char :=
  if restEffectivelyEmpty rest = true ∧ chunksLen line ≤ width then
    line.flatten
  else
    match truncGo width ph line.reverse with
    | some res => res
    | none => ph

/-- Python `TextWrapper.fill` with `max_lines=1`, `break_long_words=False`,
`drop_whitespace=True` on a pre-collapsed chunk sequence (the input
`textwrap.shorten` builds): greedily fill one line, place a too-long first
chunk whole, drop a trailing whitespace chunk, then emit the line or
truncate with the placeholder.  Hyphen-based chunk splitting
(`break_on_hyphens`) is not modelled: it only moves the truncation cut
inside hyphenated words.  (CPython additionally raises `ValueError` when
the placeholder itself cannot fit `width`; the sole call site uses width
1000, where it always fits.) -/
def wrapOneLine (width : Nat) (ph : List Char)
    (chunks : List (List Char)) : List Char :=
  let g2 := adjustLongWord width (greedyLine width chunks 0 [])
  lineResult width ph (dropTrailingSpaceChunk g2.1) g2.2

/-- Python `textwrap.shorten(text, width, placeholder=ph, break_long_words=False)`:
collapse whitespace (`' '.join(text.strip().split())`), then fill one line
of at most `width` characters with the placeholder marking truncation. -/
def pyShorten (text : List Char) (width : Nat) (ph : List Char) : List Char :=
  wrapOneLine width ph (List.intersperse spaceChunk (pySplit text))

/-- The collapsed form of the text: whitespace runs replaced by single
spaces, outer whitespace stripped. -/
def pyCollapse (text : List Char) : List Char :=
  (List.intersperse spaceChunk (pySplit text)).flatten

/-- The placeholder `JobInfo.__init__` passes to `textwrap.shorten`. -/
def truncationPlaceholder : List Char := ".. (truncated)".data

/-- The status stored by `JobInfo.__init__`: a truthy (non-empty) status is
passed through `textwrap.shorten(status, 1000, placeholder=".. (truncated)",
break_long_words=False)`; a falsy one is stored as is. -/
def JobInfo.storedStatus (status : String) : String :=
  if status ≠ "" then
    String.mk (pyShorten status.data 1000 truncationPlaceholder)
  else status

/-- A prioritized sequence in registry order: priorities never decrease. -/
abbrev PrioritySorted {α : Type} (l : List (Int × α)) : Prop :=
  l.Pairwise (fun a b => a.1 ≤ b.1)

@[simp] theorem RunnerJobInstance.state_change_fst_pending_value
    (r : RunnerJobInstance) (pe : Bool) (st : ExecutionState)
    (err : Option ExecutionError) :
    ((r.state_change pe st err).1).pending_value = r.pending_value := by
  unfold RunnerJobInstance.state_change
  cases err <;> dsimp only <;> split <;> rfl

@[simp] theorem RunnerJobInstance.state_change_fst_latchReleased
    (r : RunnerJobInstance) (pe : Bool) (st : ExecutionState)
    (err : Option ExecutionError) :
    ((r.state_change pe st err).1).latchReleased = r.latchReleased := by
  unfold RunnerJobInstance.state_change
  cases err <;> dsimp only <;> split <;> rfl

@[simp] theorem RunnerJobInstance.state_change_fst_userSync
    (r : RunnerJobInstance) (pe : Bool) (st : ExecutionState)
    (err : Option ExecutionError) :
    ((r.state_change pe st err).1).userSync = r.userSync := by
  unfold RunnerJobInstance.state_change
  cases err <;> dsimp only <;> split <;> rfl

@[simp] theorem RunnerJobInstance.state_change_fst_depends_on
    (r : RunnerJobInstance) (pe : Bool) (st : ExecutionState)
    (err : Option ExecutionError) :
    ((r.state_change pe st err).1).depends_on = r.depends_on := by
  unfold RunnerJobInstance.state_change
  cases err <;> dsimp only <;> split <;> rfl

@[simp] theorem RunnerJobInstance.state_change_fst_stopped_or_interrupted
    (r : RunnerJobInstance) (pe : Bool) (st : ExecutionState)
    (err : Option ExecutionError) :
    ((r.state_change pe st err).1).stopped_or_interrupted = r.stopped_or_interrupted := by
  unfold RunnerJobInstance.state_change
  cases err <;> dsimp only <;> split <;> rfl

@[simp] theorem RunnerJobInstance.state_change_fst_executing
    (r : RunnerJobInstance) (pe : Bool) (st : ExecutionState)
    (err : Option ExecutionError) :
    ((r.state_change pe st err).1).executing = r.executing := by
  unfold RunnerJobInstance.state_change
  cases err <;> dsimp only <;> split <;> rfl

@[simp] theorem RunnerJobInstance.state_change_fst_executeInvoked
    (r : RunnerJobInstance) (pe : Bool) (st : ExecutionState)
    (err : Option ExecutionError) :
    ((r.state_change pe st err).1).executeInvoked = r.executeInvoked := by
  unfold RunnerJobInstance.state_change
  cases err <;> dsimp only <;> split <;> rfl

@[simp] theorem RunnerJobInstance.state_change_fst_executionStopInvoked
    (r : RunnerJobInstance) (pe : Bool) (st : ExecutionState)
    (err : Option ExecutionError) :
    ((r.state_change pe st err).1).executionStopInvoked = r.executionStopInvoked := by
  unfold RunnerJobInstance.state_change
  cases err <;> dsimp only <;> split <;> rfl

@[simp] theorem RunnerJobInstance.state_change_fst_executionInterruptInvoked
    (r : RunnerJobInstance) (pe : Bool) (st : ExecutionState)
    (err : Option ExecutionError) :
    ((r.state_change pe st err).1).executionInterruptInvoked = r.executionInterruptInvoked := by
  unfold RunnerJobInstance.state_change
  cases err <;> dsimp only <;> split <;> rfl

@[simp] theorem RunnerJobInstance.state_change_fst_outputObserverAdded
    (r : RunnerJobInstance) (pe : Bool) (st : ExecutionState)
    (err : Option ExecutionError) :
    ((r.state_change pe st err).1).outputObserverAdded = r.outputObserverAdded := by
  unfold RunnerJobInstance.state_change
  cases err <;> dsimp only <;> split <;> rfl

@[simp] theorem RunnerJobInstance.state_change_fst_propagatedSystemExit
    (r : RunnerJobInstance) (pe : Bool) (st : ExecutionState)
    (err : Option ExecutionError) :
    ((r.state_change pe st err).1).propagatedSystemExit = r.propagatedSystemExit := by
  unfold RunnerJobInstance.state_change
  cases err <;> dsimp only <;> split <;> rfl

/-- C1: if `stop()` is called before `run()` begins and then `run()` is
called, the instance reaches the terminal state `CANCELLED` and the
execution backend's `execute()` is never invoked — for every construction
(any pending value, user strategy, dependencies, persistence setting,
backend, job-directory answer) and any fuel at least 1. -/
theorem C1_stop_before_run_yields_cancelled_without_execute
    (pv : Option String) (sync : SyncStrategy) (dep : List String)
    (pe : Bool) (ex : Execution) (jobsInfo : Except String (List String))
    (m : String → String → Bool) (fuel : Nat) (hfuel : 1 ≤ fuel) :
    (RunnerJobInstance.run pe ex jobsInfo m fuel
      (RunnerJobInstance.init pv sync dep pe).stop).lifecycle.state
        = some ExecutionState.CANCELLED ∧
    ExecutionState.CANCELLED.is_terminal = true ∧
    (RunnerJobInstance.run pe ex jobsInfo m fuel
      (RunnerJobInstance.init pv sync dep pe).stop).executeInvoked = false := by
  obtain ⟨n, rfl⟩ : ∃ n, fuel = n + 1 := ⟨fuel - 1, by omega⟩
  exact ⟨rfl, rfl, rfl⟩

theorem C1_stop_before_run_yields_cancelled_without_execute_witness :
    (1 : Nat) ≤ 1 ∧
    ((RunnerJobInstance.run false
        ⟨false, ExecOutcome.returnsState ExecutionState.COMPLETED⟩
        (Except.ok []) (fun _ _ => false) 1
        (RunnerJobInstance.init none SyncStrategy.noSync [] false).stop).lifecycle.state
          = some ExecutionState.CANCELLED ∧
      ExecutionState.CANCELLED.is_terminal = true ∧
      (RunnerJobInstance.run false
        ⟨false, ExecOutcome.returnsState ExecutionState.COMPLETED⟩
        (Except.ok []) (fun _ _ => false) 1
        (RunnerJobInstance.init none SyncStrategy.noSync [] false).stop).executeInvoked
          = false) :=
  ⟨by decide,
   C1_stop_before_run_yields_cancelled_without_execute none SyncStrategy.noSync
     [] false ⟨false, ExecOutcome.returnsState ExecutionState.COMPLETED⟩
     (Except.ok []) (fun _ _ => false) 1 (by decide)⟩

/-- C5: for an instance declaring dependencies (admitted via the no-op
strategy), `run()` queries the job directory after admission; if no returned
job matches any dependency the instance records the terminal state
`DEPENDENCY_NOT_RUNNING` and returns without invoking the backend; if the
directory query raises, the failure is logged and execution proceeds as if
the dependency were satisfied. -/
theorem C5_dependency_check_gates_execution
    (dep : List String) (pe : Bool) (ex : Execution)
    (m : String → String → Bool) (fuel : Nat)
    (hdep : dep ≠ []) (hfuel : 1 ≤ fuel) :
    (∀ jobs : List String,
      jobs.any (fun j => dep.any (fun d => m j d)) = false →
      (RunnerJobInstance.run pe ex (Except.ok jobs) m fuel
        (RunnerJobInstance.init none SyncStrategy.noSync dep pe)).lifecycle.state
          = some ExecutionState.DEPENDENCY_NOT_RUNNING ∧
      ExecutionState.DEPENDENCY_NOT_RUNNING.is_terminal = true ∧
      (RunnerJobInstance.run pe ex (Except.ok jobs) m fuel
        (RunnerJobInstance.init none SyncStrategy.noSync dep pe)).executeInvoked
          = false) ∧
    (∀ msg : String,
      (RunnerJobInstance.run pe ex (Except.error msg) m fuel
        (RunnerJobInstance.init none SyncStrategy.noSync dep pe)).executeInvoked
          = true ∧
      (RunnerJobInstance.run pe ex (Except.error msg) m fuel
        (RunnerJobInstance.init none SyncStrategy.noSync dep pe)).outputObserverAdded
          = true) := by
  obtain ⟨n, rfl⟩ : ∃ n, fuel = n + 1 := ⟨fuel - 1, by omega⟩
  obtain ⟨a, oc⟩ := ex
  refine ⟨fun jobs hjobs => ?_, fun msg => ?_⟩
  · cases a <;>
      simp [RunnerJobInstance.run, RunnerJobInstance.synchronize,
        RunnerJobInstance.syncIteration, RunnerJobInstance.init,
        RunnerJobInstance.effectiveSync, truthyOpt, SyncStrategy.set_signal,
        RunnerJobInstance.state_change, Lifecycle.set_state, Lifecycle.state,
        ExecutionState.is_terminal, hdep, hjobs]
  · cases a <;> cases oc <;>
      simp [RunnerJobInstance.run, RunnerJobInstance.synchronize,
        RunnerJobInstance.syncIteration, RunnerJobInstance.init,
        RunnerJobInstance.effectiveSync, truthyOpt, SyncStrategy.set_signal,
        hdep]

theorem C5_dependency_check_gates_execution_witness :
    (["job"] : List String) ≠ [] ∧ (1 : Nat) ≤ 1 ∧
    ((RunnerJobInstance.run false
        ⟨false, ExecOutcome.returnsState ExecutionState.COMPLETED⟩
        (Except.ok ["other"]) (fun _ _ => false) 1
        (RunnerJobInstance.init none SyncStrategy.noSync ["job"] false)).lifecycle.state
          = some ExecutionState.DEPENDENCY_NOT_RUNNING) ∧
    ((RunnerJobInstance.run false
        ⟨false, ExecOutcome.returnsState ExecutionState.COMPLETED⟩
        (Except.error "unreachable") (fun _ _ => false) 1
        (RunnerJobInstance.init none SyncStrategy.noSync ["job"] false)).executeInvoked
          = true) :=
  ⟨by decide, by decide,
   ((C5_dependency_check_gates_execution ["job"] false
       ⟨false, ExecOutcome.returnsState ExecutionState.COMPLETED⟩
       (fun _ _ => false) 1 (by decide) (by decide)).1 ["other"] (by decide)).1,
   ((C5_dependency_check_gates_execution ["job"] false
       ⟨false, ExecOutcome.returnsState ExecutionState.COMPLETED⟩
       (fun _ _ => false) 1 (by decide) (by decide)).2 "unreachable").1⟩

/-- C6: when `Lifecycle.set_state` reports that no transition occurred,
`_state_change` builds no snapshot, performs no persistence hand-off and
notifies no state observer, and the recorded lifecycle is unchanged;
those effects happen only on a real transition. -/
theorem C6_no_transition_no_effects (r : RunnerJobInstance) (pe : Bool)
    (new_state : ExecutionState) (err : Option ExecutionError)
    (h : (r.lifecycle.set_state new_state).2 = false) :
    (r.state_change pe new_state err).2.snapshotBuilt = false ∧
    (r.state_change pe new_state err).2.persisted = false ∧
    (r.state_change pe new_state err).2.notified = false ∧
    (r.state_change pe new_state err).1.lifecycle = r.lifecycle := by
  cases err <;> simp [RunnerJobInstance.state_change, h]

theorem C6_no_transition_no_effects_witness :
    ((Lifecycle.set_state [ExecutionState.COMPLETED]
        ExecutionState.RUNNING).2 = false) ∧
    (((⟨none, false, SyncStrategy.noSync, [], [ExecutionState.COMPLETED],
        none, false, false, false, false, false, false, false⟩ :
          RunnerJobInstance).state_change true ExecutionState.RUNNING
            none).2.notified = false) :=
  ⟨by decide,
   (C6_no_transition_no_effects
     ⟨none, false, SyncStrategy.noSync, [], [ExecutionState.COMPLETED],
      none, false, false, false, false, false, false, false⟩
     true ExecutionState.RUNNING none (by decide)).2.2.1⟩

/-- C7: for an instance with (truthy) pending value `G`, `release` with a
non-matching non-empty group `H` returns `False` and leaves the instance
(latch included) untouched, while `release` with `G` releases the latch and
returns `True`; for an instance with no truthy pending value, `release`
always returns `False` and changes nothing. -/
theorem C7_release_matches_pending_group (r : RunnerJobInstance)
    (G H : String) (hpv : r.pending_value = some G) (hG : G ≠ "")
    (hH : H ≠ "") (hHG : H ≠ G) :
    r.release (some H) = (r, false) ∧
    (r.release (some G)).2 = true ∧
    (r.release (some G)).1.latchReleased = true ∧
    (∀ r2 : RunnerJobInstance, truthyOpt r2.pending_value = false →
      ∀ pv, r2.release pv = (r2, false)) := by
  refine ⟨?_, ?_, ?_, fun r2 h2 pv => ?_⟩
  · simp [RunnerJobInstance.release, truthyOpt, hpv, hG, hH, hHG]
  · simp [RunnerJobInstance.release, truthyOpt, hpv, hG]
  · simp [RunnerJobInstance.release, truthyOpt, hpv, hG]
  · simp [RunnerJobInstance.release, h2]

theorem C7_release_matches_pending_group_witness :
    (((⟨some "g", false, SyncStrategy.noSync, [], [ExecutionState.PENDING],
        none, false, false, false, false, false, false, false⟩ :
          RunnerJobInstance).release (some "h")).2 = false) ∧
    (((⟨some "g", false, SyncStrategy.noSync, [], [ExecutionState.PENDING],
        none, false, false, false, false, false, false, false⟩ :
          RunnerJobInstance).release (some "g")).2 = true) :=
  ⟨congrArg Prod.snd
     (C7_release_matches_pending_group
       ⟨some "g", false, SyncStrategy.noSync, [], [ExecutionState.PENDING],
        none, false, false, false, false, false, false, false⟩
       "g" "h" rfl (by decide) (by decide) (by decide)).1,
   (C7_release_matches_pending_group
     ⟨some "g", false, SyncStrategy.noSync, [], [ExecutionState.PENDING],
      none, false, false, false, false, false, false, false⟩
     "g" "h" rfl (by decide) (by decide) (by decide)).2.1⟩

/-- C10 (implicit in the code): for an instance with a (truthy) pending
value, `release` with no group (`None`) or an empty group releases the latch
and returns `True`, exactly as the matching-group release does. -/
theorem C10_falsy_release_unblocks (r : RunnerJobInstance) (G : String)
    (hpv : r.pending_value = some G) (hG : G ≠ "") :
    (r.release none).2 = true ∧
    (r.release none).1.latchReleased = true ∧
    r.release (some "") = r.release none ∧
    r.release none = r.release (some G) := by
  refine ⟨?_, ?_, ?_, ?_⟩ <;>
    simp [RunnerJobInstance.release, truthyOpt, hpv, hG]

theorem C10_falsy_release_unblocks_witness :
    (((⟨some "g", false, SyncStrategy.noSync, [], [ExecutionState.PENDING],
        none, false, false, false, false, false, false, false⟩ :
          RunnerJobInstance).release none).2 = true) ∧
    (((⟨some "g", false, SyncStrategy.noSync, [], [ExecutionState.PENDING],
        none, false, false, false, false, false, false, false⟩ :
          RunnerJobInstance).release none).1.latchReleased = true) :=
  ⟨(C10_falsy_release_unblocks
     ⟨some "g", false, SyncStrategy.noSync, [], [ExecutionState.PENDING],
      none, false, false, false, false, false, false, false⟩
     "g" rfl (by decide)).1,
   (C10_falsy_release_unblocks
     ⟨some "g", false, SyncStrategy.noSync, [], [ExecutionState.PENDING],
      none, false, false, false, false, false, false, false⟩
     "g" rfl (by decide)).2.1⟩

theorem insertPrioritized_mem {α : Type} (p b : Int × α) (l : List (Int × α)) :
    b ∈ insertPrioritized p l ↔ b = p ∨ b ∈ l := by
  induction l with
  | nil => simp [insertPrioritized]
  | cons q qs ih =>
      by_cases h : q.1 ≤ p.1
      · simp [insertPrioritized, h, ih]; tauto
      · simp [insertPrioritized, h]

theorem insertPrioritized_pairwise {α : Type} (p : Int × α)
    (l : List (Int × α)) (hl : PrioritySorted l) :
    PrioritySorted (insertPrioritized p l) := by
  induction l with
  | nil => simp [insertPrioritized, PrioritySorted]
  | cons q qs ih =>
      rw [PrioritySorted, List.pairwise_cons] at hl
      obtain ⟨hq, hqs⟩ := hl
      by_cases h : q.1 ≤ p.1
      · rw [insertPrioritized]
        simp only [h, if_true]
        rw [PrioritySorted, List.pairwise_cons]
        refine ⟨fun b hb => ?_, ih hqs⟩
        rcases (insertPrioritized_mem p b qs).1 hb with rfl | hbq
        · exact h
        · exact hq b hbq
      · rw [insertPrioritized]
        simp only [h, if_false]
        rw [PrioritySorted, List.pairwise_cons]
        refine ⟨fun b hb => ?_, List.pairwise_cons.2 ⟨hq, hqs⟩⟩
        rcases List.mem_cons.1 hb with rfl | hbq
        · exact le_of_not_le h
        · exact le_trans (le_of_not_le h) (hq b hbq)

theorem pySorted_go_pairwise {α : Type} (l : List (Int × α)) :
    ∀ acc : List (Int × α), PrioritySorted acc →
    PrioritySorted (l.foldl (fun a x => insertPrioritized x a) acc) := by
  induction l with
  | nil => intro acc hacc; simpa using hacc
  | cons x xs ih =>
      intro acc hacc
      exact ih _ (insertPrioritized_pairwise x acc hacc)

theorem pySortedByPriority_pairwise {α : Type} (l : List (Int × α)) :
    PrioritySorted (pySortedByPriority l) :=
  pySorted_go_pairwise l [] (by simp [PrioritySorted])

theorem insertPrioritized_all_le {α : Type} (p : Int × α)
    (l : List (Int × α)) (h : ∀ q ∈ l, q.1 ≤ p.1) :
    insertPrioritized p l = l ++ [p] := by
  induction l with
  | nil => rfl
  | cons q qs ih =>
      have hq : q.1 ≤ p.1 := h q (by simp)
      simp [insertPrioritized, hq, ih (fun r hr => h r (by simp [hr]))]

theorem pySorted_go_id {α : Type} (l : List (Int × α)) :
    ∀ acc : List (Int × α), PrioritySorted (acc ++ l) →
    l.foldl (fun a x => insertPrioritized x a) acc = acc ++ l := by
  induction l with
  | nil => intro acc h; simp
  | cons x xs ih =>
      intro acc h
      have hx : ∀ q ∈ acc, q.1 ≤ x.1 := by
        intro q hq
        exact (List.pairwise_append.1 h).2.2 q hq x (by simp)
      rw [List.foldl_cons, insertPrioritized_all_le x acc hx,
        ih (acc ++ [x]) (by simpa using h)]
      simp

theorem pySortedByPriority_of_sorted {α : Type} (l : List (Int × α))
    (h : PrioritySorted l) : pySortedByPriority l = l :=
  pySorted_go_id l [] (by simpa using h)

theorem add_prioritized_eq_insert {α : Type} (s : List (Int × α))
    (p : Int) (x : α) (h : PrioritySorted s) :
    add_prioritized s p x = insertPrioritized (p, x) s := by
  rw [add_prioritized, pySortedByPriority, List.foldl_append]
  rw [show s.foldl (fun a x => insertPrioritized x a) [] = s from
    pySorted_go_id s [] (by simpa using h)]
  rfl

/-- C3 counterexample: with a per-instance listener of priority 30 and a
process-wide listener of priority 10 (each registry built by
`_add_prioritized`), the fan-out invokes the priority-30 listener first —
not the single cross-registry priority order the claim states, which would
put the priority-10 listener first. -/
theorem C3_counterexample_cross_registry_order :
    add_prioritized ([] : List (Int × Nat)) 30 0 = [(30, 0)] ∧
    add_prioritized ([] : List (Int × Nat)) 10 1 = [(10, 1)] ∧
    gen_prioritized [((30 : Int), (0 : Nat))] [((10 : Int), 1)] = [0, 1] ∧
    claimedMergedFanout [((30 : Int), (0 : Nat))] [((10 : Int), 1)] = [1, 0] ∧
    ([0, 1] : List Nat) ≠ [1, 0] := by decide

/-- C3 amended: the fan-out invokes all per-instance entries before all
process-wide entries (a concatenation of the two registries, not a merge);
within each registry, entries are kept in ascending priority order by
`_add_prioritized` (Python's stable sort), with a newly registered listener
placed after existing entries of priority less than or equal to its own —
ties broken by registration order. -/
theorem C3_amended_fanout_per_registry_order {α : Type} :
    (∀ s1 s2 : List (Int × α),
      gen_prioritized s1 s2 = s1.map Prod.snd ++ s2.map Prod.snd) ∧
    (∀ (s : List (Int × α)) (p : Int) (x : α), PrioritySorted s →
      PrioritySorted (add_prioritized s p x)) ∧
    (∀ (s : List (Int × α)) (p : Int) (x : α), PrioritySorted s →
      add_prioritized s p x = insertPrioritized (p, x) s) := by
  refine ⟨fun s1 s2 => ?_, fun s p x h => ?_, fun s p x h => ?_⟩
  · simp [gen_prioritized]
  · exact pySortedByPriority_pairwise _
  · exact add_prioritized_eq_insert s p x h

theorem C3_amended_fanout_per_registry_order_witness :
    PrioritySorted ([((10 : Int), (5 : Nat))] : List (Int × Nat)) ∧
    PrioritySorted (add_prioritized ([((10 : Int), (5 : Nat))]) 10 7) ∧
    add_prioritized ([((10 : Int), (5 : Nat))]) 10 7 = [(10, 5), (10, 7)] ∧
    gen_prioritized
      (add_prioritized (add_prioritized (add_prioritized
        ([] : List (Int × Nat)) 30 0) 10 1) 20 2) [] = [1, 2, 0] :=
  ⟨by decide,
   C3_amended_fanout_per_registry_order.2.1 _ 10 7 (by decide),
   by decide, by decide⟩

theorem notify_observers_cons (o : Observer) (rest : List Observer)
    (evs : List NotifyEvent) (h : notify_observers rest = Except.ok evs) :
    notify_observers (o :: rest) = Except.ok (Observer.events o ++ evs) := by
  rw [notify_observers, h]
  rfl

theorem notify_observers_total (obs : List Observer) :
    ∃ evs, notify_observers obs = Except.ok evs := by
  induction obs with
  | nil => exact ⟨[], rfl⟩
  | cons o rest ih =>
      obtain ⟨evs, hevs⟩ := ih
      exact ⟨Observer.events o ++ evs, notify_observers_cons o rest evs hevs⟩

theorem notify_observers_append (l1 l2 : List Observer)
    (evs1 evs2 : List NotifyEvent)
    (h1 : notify_observers l1 = Except.ok evs1)
    (h2 : notify_observers l2 = Except.ok evs2) :
    notify_observers (l1 ++ l2) = Except.ok (evs1 ++ evs2) := by
  induction l1 generalizing evs1 with
  | nil =>
      rw [notify_observers] at h1
      injection h1 with h1
      subst h1
      simpa using h2
  | cons o rest ih =>
      obtain ⟨evs', hrest⟩ := notify_observers_total rest
      rw [notify_observers_cons o rest evs' hrest] at h1
      injection h1 with h1
      subst h1
      rw [List.cons_append,
        notify_observers_cons o (rest ++ l2) (evs' ++ evs2) (ih evs' hrest)]
      simp

theorem Observer.events_of_raising (o : Observer)
    (hk : o.kind ≠ ObserverKind.unclassified) (hr : o.raisesOnCall = true) :
    Observer.events o =
      [NotifyEvent.invoked o.oid, NotifyEvent.loggedException o.oid] := by
  cases h : o.kind <;>
    simp_all [Observer.events, Observer.invoke]

/-- C8: in every observer fan-out, a listener whose callback raises has the
exception caught and logged, every listener ordered after it is still
invoked (the fan-out's events are exactly: the preceding listeners' events,
then the raiser's invocation and logged exception, then the following
listeners' events), and the fan-out always returns normally — the exception
is never visible to the caller of the triggering operation. -/
theorem C8_listener_exception_isolated :
    (∀ obs : List Observer, ∃ evs, notify_observers obs = Except.ok evs) ∧
    (∀ (pre post : List Observer) (o : Observer)
        (evs1 evs2 : List NotifyEvent),
      o.raisesOnCall = true → o.kind ≠ ObserverKind.unclassified →
      notify_observers pre = Except.ok evs1 →
      notify_observers post = Except.ok evs2 →
      notify_observers (pre ++ o :: post) =
        Except.ok (evs1 ++ NotifyEvent.invoked o.oid ::
          NotifyEvent.loggedException o.oid :: evs2)) := by
  refine ⟨notify_observers_total, fun pre post o evs1 evs2 hr hk h1 h2 => ?_⟩
  have hcons := notify_observers_cons o post evs2 h2
  rw [Observer.events_of_raising o hk hr] at hcons
  have := notify_observers_append pre (o :: post) evs1
    (NotifyEvent.invoked o.oid :: NotifyEvent.loggedException o.oid :: evs2)
    h1 (by simpa using hcons)
  simpa using this

theorem C8_listener_exception_isolated_witness :
    (∃ evs, notify_observers [⟨1, ObserverKind.typed, false⟩] =
      Except.ok evs) ∧
    notify_observers ([⟨1, ObserverKind.typed, false⟩] ++
        (⟨2, ObserverKind.callableObserver, true⟩ : Observer) ::
          [⟨3, ObserverKind.typed, false⟩]) =
      Except.ok ([NotifyEvent.invoked 1] ++ NotifyEvent.invoked 2 ::
        NotifyEvent.loggedException 2 :: [NotifyEvent.invoked 3]) :=
  ⟨C8_listener_exception_isolated.1 [⟨1, ObserverKind.typed, false⟩],
   C8_listener_exception_isolated.2 [⟨1, ObserverKind.typed, false⟩]
     [⟨3, ObserverKind.typed, false⟩]
     ⟨2, ObserverKind.callableObserver, true⟩ [NotifyEvent.invoked 1]
     [NotifyEvent.invoked 3] rfl (by decide) rfl rfl⟩

/-- C2 counterexample: with `stop()` called (`stopped = true`), interrupt
flag unset, and the child terminated by `SIGINT` (exit code `-2`, a negative
exit code after `stop()`), `execute` returns the interrupted result — not
the stopped result the claim's case order prescribes — because the code
checks the interrupt condition before the stopped condition. -/
theorem C2_counterexample_interrupt_checked_before_stop :
    ProcessExecution.execute true false (-2) =
      Except.ok ExecutionResult.INTERRUPTED ∧
    claimedProcessOutcome true false (-2) =
      Except.ok ExecutionResult.STOPPED ∧
    (Except.ok ExecutionResult.INTERRUPTED : Except Int ExecutionResult) ≠
      Except.ok ExecutionResult.STOPPED := by
  refine ⟨rfl, rfl, fun h => ?_⟩
  injection h with h
  exact ExecutionResult.noConfusion h

/-- C2 amended: for every completed child process, exit code 0 yields the
completed result; otherwise the designated interrupt condition (interrupted
flag set, or exit code equal to the negated interrupt signal) is checked
first and yields the interrupted result; only then does a set stopped flag
or a negative exit code yield the stopped result; any remaining nonzero
(positive, with both flags unset) exit code raises an execution error
carrying that code. -/
theorem C2_amended_process_outcome_mapping
    (stopped interrupted : Bool) (exitcode : Int) :
    (exitcode = 0 →
      ProcessExecution.execute stopped interrupted exitcode =
        Except.ok ExecutionResult.DONE) ∧
    (exitcode ≠ 0 → (interrupted = true ∨ exitcode = -SIGINT) →
      ProcessExecution.execute stopped interrupted exitcode =
        Except.ok ExecutionResult.INTERRUPTED) ∧
    (exitcode ≠ 0 → interrupted = false → exitcode ≠ -SIGINT →
      (stopped = true ∨ exitcode < 0) →
      ProcessExecution.execute stopped interrupted exitcode =
        Except.ok ExecutionResult.STOPPED) ∧
    (0 < exitcode → interrupted = false → stopped = false →
      ProcessExecution.execute stopped interrupted exitcode =
        Except.error exitcode) := by
  refine ⟨fun h0 => ?_, fun h0 hint => ?_, fun h0 hi hs hcond => ?_,
    fun hpos hi hs => ?_⟩
  · simp [ProcessExecution.execute, h0]
  · rcases hint with hi | he
    · simp [ProcessExecution.execute, h0, hi]
    · subst he
      simp [ProcessExecution.execute, SIGINT]
  · rcases hcond with hst | hneg
    · simp [ProcessExecution.execute, h0, hi, hs, hst]
    · simp [ProcessExecution.execute, h0, hi, hs, hneg]
  · have h0 : ¬ (exitcode = 0) := by omega
    have hs2 : ¬ (exitcode = -SIGINT) := by rw [SIGINT]; omega
    have hneg : ¬ (exitcode < 0) := by omega
    simp [ProcessExecution.execute, h0, hi, hs, hs2, hneg]

theorem C2_amended_process_outcome_mapping_witness :
    ((0 : Int) = 0 ∧ ProcessExecution.execute false false 0 =
      Except.ok ExecutionResult.DONE) ∧
    (ProcessExecution.execute false true 5 =
      Except.ok ExecutionResult.INTERRUPTED) ∧
    (ProcessExecution.execute true false 9 =
      Except.ok ExecutionResult.STOPPED) ∧
    (ProcessExecution.execute false false 3 = Except.error 3) :=
  ⟨⟨rfl, (C2_amended_process_outcome_mapping false false 0).1 rfl⟩,
   (C2_amended_process_outcome_mapping false true 5).2.1 (by decide)
     (Or.inl rfl),
   (C2_amended_process_outcome_mapping true false 9).2.2.1 (by decide) rfl
     (by decide) (Or.inl rfl),
   (C2_amended_process_outcome_mapping false false 3).2.2.2 (by decide)
     rfl rfl⟩

/-- C4 counterexample: a whitespace-only line written while the queue is
full (capacity 1 with 1 message queued) is dropped (nothing enqueued) and
forwarded to the original stream, but no queue-full warning is logged,
because the stripped text is empty and the enqueue attempt is skipped
entirely — contradicting the claim that a warning is logged for every line
dropped on a full queue. -/
theorem C4_counterexample_blank_line_full_queue_no_warning :
    (CapturingWriter.write ⟨1, false, [(['x'], false)], [], 0⟩
      ['\n']).fullWarningsLogged = 0 ∧
    (CapturingWriter.write ⟨1, false, [(['x'], false)], [], 0⟩
      ['\n']).queue = [(['x'], false)] ∧
    (CapturingWriter.write ⟨1, false, [(['x'], false)], [], 0⟩
      ['\n']).outStream = [['\n']] ∧
    (⟨1, false, [(['x'], false)], [], 0⟩ :
      CapturingWriter).queue.length = 1 := by decide

/-- C4 amended: when the output queue is full, every written line is
dropped (the queue is unchanged); a queue-full warning is logged exactly
when the line's stripped text is non-empty (a whitespace-only line is never
enqueued and logs nothing); the write returns without blocking and the
original text is always forwarded to the wrapped stream; a full queue never
raises out of the writer (the model is a total function — `queue.Full` is
caught inside `write`). -/
theorem C4_amended_full_queue_drops_and_forwards
    (w : CapturingWriter) (text : List Char)
    (hfull : w.capacity ≤ w.queue.length) :
    (w.write text).queue = w.queue ∧
    (pyRstrip text ≠ [] →
      (w.write text).fullWarningsLogged = w.fullWarningsLogged + 1) ∧
    (pyRstrip text = [] →
      (w.write text).fullWarningsLogged = w.fullWarningsLogged) ∧
    (w.write text).outStream = w.outStream ++ [text] := by
  have hlt : ¬ (w.queue.length < w.capacity) := by omega
  by_cases h : pyRstrip text = [] <;>
    simp [CapturingWriter.write, h, hlt]

theorem C4_amended_full_queue_drops_and_forwards_witness :
    ((⟨1, false, [(['x'], false)], [], 0⟩ : CapturingWriter).capacity ≤
      (⟨1, false, [(['x'], false)], [], 0⟩ : CapturingWriter).queue.length) ∧
    (CapturingWriter.write ⟨1, false, [(['x'], false)], [], 0⟩
      ['y', '\n']).queue = [(['x'], false)] ∧
    (CapturingWriter.write ⟨1, false, [(['x'], false)], [], 0⟩
      ['y', '\n']).fullWarningsLogged = 1 :=
  ⟨by decide,
   (C4_amended_full_queue_drops_and_forwards ⟨1, false, [(['x'], false)], [], 0⟩
     ['y', '\n'] (by decide)).1,
   (C4_amended_full_queue_drops_and_forwards ⟨1, false, [(['x'], false)], [], 0⟩
     ['y', '\n'] (by decide)).2.1 (by decide)⟩

theorem chunksLen_cons (c : List Char) (l : List (List Char)) :
    chunksLen (c :: l) = c.length + chunksLen l := by
  simp [chunksLen]

theorem chunksLen_reverse (l : List (List Char)) :
    chunksLen l.reverse = chunksLen l := by
  simp [chunksLen]
  exact List.sum_reverse _

theorem greedyLine_all_fit (width : Nat) (cs : List (List Char)) :
    ∀ (len : Nat) (acc : List (List Char)), len + chunksLen cs ≤ width →
    greedyLine width cs len acc = (acc.reverse ++ cs, []) := by
  induction cs with
  | nil => intro len acc h; simp [greedyLine]
  | cons c cs ih =>
      intro len acc h
      rw [chunksLen_cons] at h
      have hc : len + c.length ≤ width := by omega
      rw [greedyLine, if_pos hc, ih (len + c.length) (c :: acc) (by omega)]
      simp

theorem greedyLine_split (width : Nat) (cs : List (List Char)) :
    ∀ (len : Nat) (acc : List (List Char)),
    (greedyLine width cs len acc).1 ++ (greedyLine width cs len acc).2 =
      acc.reverse ++ cs := by
  induction cs with
  | nil => intro len acc; simp [greedyLine]
  | cons c cs ih =>
      intro len acc
      rw [greedyLine]
      by_cases hc : len + c.length ≤ width
      · rw [if_pos hc]
        rw [ih (len + c.length) (c :: acc)]
        simp
      · rw [if_neg hc]

theorem truncGo_some_marker (width : Nat) (ph : List Char)
    (l : List (List Char)) :
    ∀ res, truncGo width ph l = some res → ∃ pre, res = pre ++ ph := by
  induction l with
  | nil => intro res h; exact absurd h (by simp [truncGo])
  | cons c rest ih =>
      intro res h
      rw [truncGo] at h
      by_cases hc : isSpaceChunk c = false ∧
          chunksLen (c :: rest) + ph.length ≤ width
      · rw [if_pos hc] at h
        injection h with h
        exact ⟨((c :: rest).reverse).flatten, h.symm⟩
      · rw [if_neg hc] at h
        exact ih res h

theorem truncGo_some_length (width : Nat) (ph : List Char)
    (l : List (List Char)) :
    ∀ res, truncGo width ph l = some res → res.length ≤ width := by
  induction l with
  | nil => intro res h; exact absurd h (by simp [truncGo])
  | cons c rest ih =>
      intro res h
      rw [truncGo] at h
      by_cases hc : isSpaceChunk c = false ∧
          chunksLen (c :: rest) + ph.length ≤ width
      · rw [if_pos hc] at h
        injection h with h
        subst h
        have hflat : (((c :: rest).reverse).flatten).length =
            chunksLen (c :: rest) := by
          rw [List.length_flatten, ← chunksLen_reverse]
          rfl
        simp only [List.length_append, hflat]
        exact hc.2
      · rw [if_neg hc] at h
        exact ih res h

theorem lineResult_marker (width : Nat) (ph : List Char)
    (line rest : List (List Char))
    (h : restEffectivelyEmpty rest = true → width < chunksLen line) :
    ∃ pre, lineResult width ph line rest = pre ++ ph := by
  rw [lineResult, if_neg (by rintro ⟨h1, h2⟩; have := h h1; omega)]
  cases ht : truncGo width ph line.reverse with
  | some res =>
      obtain ⟨pre, hpre⟩ := truncGo_some_marker width ph line.reverse res ht
      exact ⟨pre, hpre⟩
  | none => exact ⟨[], by simp⟩

theorem lineResult_fits (width : Nat) (ph : List Char)
    (line rest : List (List Char))
    (h1 : restEffectivelyEmpty rest = true)
    (h2 : chunksLen line ≤ width) :
    lineResult width ph line rest = line.flatten := by
  rw [lineResult, if_pos ⟨h1, h2⟩]

theorem lineResult_length (width : Nat) (ph : List Char)
    (hph : ph.length ≤ width) (line rest : List (List Char)) :
    (lineResult width ph line rest).length ≤ width := by
  rw [lineResult]
  split
  · next h =>
      rw [List.length_flatten]
      have := h.2
      simpa [chunksLen] using this
  · cases ht : truncGo width ph line.reverse with
    | some res => simpa using truncGo_some_length width ph line.reverse res ht
    | none => simpa using hph

theorem dropTrailingSpaceChunk_id (line : List (List Char))
    (h : ∀ c, line.getLast? = some c → isSpaceChunk c = false) :
    dropTrailingSpaceChunk line = line := by
  rw [dropTrailingSpaceChunk]
  cases hc : line.getLast? with
  | none => rfl
  | some c => simp [h c hc]

theorem wrapOneLine_length (width : Nat) (ph : List Char)
    (hph : ph.length ≤ width) (chunks : List (List Char)) :
    (wrapOneLine width ph chunks).length ≤ width := by
  rw [wrapOneLine]
  exact lineResult_length width ph hph _ _

theorem wrapOneLine_of_fits (width : Nat) (ph : List Char)
    (chunks : List (List Char))
    (hlast : ∀ c, chunks.getLast? = some c → isSpaceChunk c = false)
    (hfit : chunksLen chunks ≤ width) :
    wrapOneLine width ph chunks = chunks.flatten := by
  have hg : greedyLine width chunks 0 [] = (chunks, []) := by
    simpa using greedyLine_all_fit width chunks 0 [] (by omega)
  rw [wrapOneLine, hg]
  rw [show adjustLongWord width (chunks, []) = (chunks, []) from rfl]
  rw [dropTrailingSpaceChunk_id chunks hlast]
  exact lineResult_fits width ph chunks [] rfl hfit

theorem wrapOneLine_marker (width : Nat) (ph : List Char)
    (chunks : List (List Char))
    (hhead : ∀ c, chunks.head? = some c → isSpaceChunk c = false)
    (hlast : ∀ c, chunks.getLast? = some c → isSpaceChunk c = false)
    (hbig : width < chunksLen chunks) :
    ∃ pre, wrapOneLine width ph chunks = pre ++ ph := by
  obtain ⟨gl, gr, hgeq⟩ :
      ∃ gl gr, greedyLine width chunks 0 [] = (gl, gr) := ⟨_, _, rfl⟩
  have hsplit : gl ++ gr = chunks := by
    have h := greedyLine_split width chunks 0 []
    rw [hgeq] at h
    simpa using h
  rw [wrapOneLine, hgeq]
  cases gr with
  | nil =>
      have hgl : gl = chunks := by simpa using hsplit
      subst hgl
      rw [show adjustLongWord width (gl, []) = (gl, []) from rfl]
      rw [dropTrailingSpaceChunk_id gl hlast]
      exact lineResult_marker width ph gl [] (fun _ => hbig)
  | cons c cs =>
      by_cases hadj : width < c.length ∧ gl = []
      · obtain ⟨hwc, hgl⟩ := hadj
        subst hgl
        have hchunks : c :: cs = chunks := by simpa using hsplit
        have hcns : isSpaceChunk c = false := by
          apply hhead
          rw [← hchunks]
          rfl
        rw [show adjustLongWord width ([], c :: cs) = ([c], cs) by
          simp [adjustLongWord, hwc]]
        rw [dropTrailingSpaceChunk_id [c]
          (fun d hd => by
            simp only [List.getLast?_singleton, Option.some.injEq] at hd
            rw [← hd]
            exact hcns)]
        refine lineResult_marker width ph [c] cs (fun _ => ?_)
        simpa [chunksLen] using hwc
      · rw [show adjustLongWord width (gl, c :: cs) = (gl, c :: cs) by
          simp [adjustLongWord, hadj]]
        refine lineResult_marker width ph (dropTrailingSpaceChunk gl)
          (c :: cs) (fun hre => ?_)
        exfalso
        cases cs with
        | nil =>
            have hc : isSpaceChunk c = false := by
              apply hlast
              rw [← hsplit]
              exact List.getLast?_concat gl
            simp [restEffectivelyEmpty, hc] at hre
        | cons c2 t =>
            simp [restEffectivelyEmpty] at hre

theorem pySplitGo_words (s : List Char) :
    ∀ acc : List Char, (∀ c ∈ acc, isPyWs c = false) →
    ∀ w ∈ pySplitGo s acc, w ≠ [] ∧ ∀ c ∈ w, isPyWs c = false := by
  induction s with
  | nil =>
      intro acc hacc w hw
      rw [pySplitGo] at hw
      by_cases h : acc = []
      · simp [h] at hw
      · simp [h] at hw
        subst hw
        refine ⟨by simpa using h, fun c hc => hacc c (by simpa using hc)⟩
  | cons c cs ih =>
      intro acc hacc w hw
      rw [pySplitGo] at hw
      by_cases hws : isPyWs c
      · simp only [hws, if_true] at hw
        by_cases ha : acc = []
        · simp only [ha, if_pos rfl] at hw
          exact ih [] (by simp) w hw
        · simp only [if_neg ha, List.mem_cons] at hw
          rcases hw with rfl | hw
          · refine ⟨by simpa using ha, fun x hx => hacc x (by simpa using hx)⟩
          · exact ih [] (by simp) w hw
      · simp only [hws, if_false] at hw
        refine ih (c :: acc) ?_ w hw
        intro x hx
        rcases List.mem_cons.1 hx with rfl | hx
        · simpa using hws
        · exact hacc x hx

theorem pySplit_words (s : List Char) :
    ∀ w ∈ pySplit s, w ≠ [] ∧ ∀ c ∈ w, isPyWs c = false :=
  pySplitGo_words s [] (by simp)

theorem isSpaceChunk_false_of_word (w : List Char) (hne : w ≠ [])
    (hw : ∀ c ∈ w, isPyWs c = false) : isSpaceChunk w = false := by
  cases w with
  | nil => exact absurd rfl hne
  | cons c t =>
      have : isPyWs c = false := hw c (by simp)
      simp [isSpaceChunk, this]

theorem intersperse_head? {α : Type} (sep : α) (l : List α) :
    (List.intersperse sep l).head? = l.head? := by
  cases l with
  | nil => rfl
  | cons a t =>
      cases t with
      | nil => rfl
      | cons b t2 => rfl

theorem intersperse_ne_nil {α : Type} (sep : α) (l : List α) (h : l ≠ []) :
    List.intersperse sep l ≠ [] := by
  cases l with
  | nil => exact absurd rfl h
  | cons a t => cases t <;> simp [List.intersperse]

theorem intersperse_getLast? {α : Type} (sep : α) (l : List α) :
    (List.intersperse sep l).getLast? = l.getLast? := by
  induction l with
  | nil => rfl
  | cons a t ih =>
      cases t with
      | nil => rfl
      | cons b t2 =>
          have h1 : List.intersperse sep (a :: b :: t2) =
              [a, sep] ++ List.intersperse sep (b :: t2) := rfl
          rw [h1, List.getLast?_append, ih, List.getLast?_cons_cons]
          cases h : (b :: t2).getLast? with
          | none => simp [List.getLast?_eq_none_iff] at h
          | some x => simp [h]

theorem chunks_head_nonspace (s : List Char) :
    ∀ c, (List.intersperse spaceChunk (pySplit s)).head? = some c →
      isSpaceChunk c = false := by
  intro c hc
  rw [intersperse_head?] at hc
  have hmem : c ∈ pySplit s := by
    cases h : pySplit s with
    | nil => rw [h] at hc; cases hc
    | cons a t =>
        rw [h] at hc
        injection hc with hc
        subst hc
        simp
  obtain ⟨hne, hall⟩ := pySplit_words s c hmem
  exact isSpaceChunk_false_of_word c hne hall

theorem chunks_last_nonspace (s : List Char) :
    ∀ c, (List.intersperse spaceChunk (pySplit s)).getLast? = some c →
      isSpaceChunk c = false := by
  intro c hc
  rw [intersperse_getLast?] at hc
  obtain ⟨hne, hall⟩ :=
    pySplit_words s c (List.mem_of_getLast?_eq_some hc)
  exact isSpaceChunk_false_of_word c hne hall

theorem pyCollapse_length (s : List Char) :
    (pyCollapse s).length =
      chunksLen (List.intersperse spaceChunk (pySplit s)) := by
  rw [pyCollapse, List.length_flatten]
  rfl

/-- C9 amended: the stored status is at most 1000 characters; the status is
first whitespace-collapsed (runs of whitespace to single spaces, outer
whitespace stripped) as `textwrap.shorten` prescribes; whenever the
collapsed status exceeds 1000 characters the stored status ends with the
truncation marker ".. (truncated)"; a non-empty status that is its own
collapsed form and within the bound is stored unchanged. -/
theorem C9_amended_bounded_status_truncation (status : String) :
    (JobInfo.storedStatus status).length ≤ 1000 ∧
    (1000 < (pyCollapse status.data).length →
      ∃ pre, (JobInfo.storedStatus status).data =
        pre ++ truncationPlaceholder) ∧
    (pyCollapse status.data = status.data → status.length ≤ 1000 →
      JobInfo.storedStatus status = status) := by
  by_cases hs : status = ""
  · subst hs
    refine ⟨by simp [JobInfo.storedStatus], fun h => absurd h (by decide), ?_⟩
    intro _ _
    simp [JobInfo.storedStatus]
  · have hstored : JobInfo.storedStatus status =
        String.mk (wrapOneLine 1000 truncationPlaceholder
          (List.intersperse spaceChunk (pySplit status.data))) := by
      rw [JobInfo.storedStatus, if_pos hs]
      rfl
    refine ⟨?_, fun hbig => ?_, fun hcol hlen => ?_⟩
    · rw [hstored]
      show (wrapOneLine 1000 truncationPlaceholder
        (List.intersperse spaceChunk (pySplit status.data))).length ≤ 1000
      exact wrapOneLine_length 1000 truncationPlaceholder (by decide) _
    · rw [hstored]
      rw [pyCollapse_length] at hbig
      exact wrapOneLine_marker 1000 truncationPlaceholder _
        (chunks_head_nonspace status.data) (chunks_last_nonspace status.data)
        hbig
    · rw [hstored]
      have hfit : chunksLen
          (List.intersperse spaceChunk (pySplit status.data)) ≤ 1000 := by
        rw [← pyCollapse_length, hcol]
        exact hlen
      rw [wrapOneLine_of_fits 1000 truncationPlaceholder _
        (chunks_last_nonspace status.data) hfit]
      rw [show (List.intersperse spaceChunk (pySplit status.data)).flatten =
        pyCollapse status.data from rfl, hcol]

set_option maxRecDepth 40000 in
/-- C9 counterexample: `JobInfo.__init__` stores `textwrap.shorten(status,
1000, ...)`, which first collapses whitespace runs; the 4-character status
"a  b" (within the bound) is stored as "a b", not unchanged; and a
1502-character status made of a 1500-space run between two letters collapses
to "a b" — stored without any truncation marker although the original
exceeds the bound. -/
theorem C9_counterexample_whitespace_collapse :
    JobInfo.storedStatus "a  b" = "a b" ∧
    ("a  b" : String) ≠ "a b" ∧
    ("a  b" : String).length ≤ 1000 ∧
    JobInfo.storedStatus
      (String.mk ('a' :: (List.replicate 1500 ' ' ++ ['b']))) = "a b" ∧
    1000 < (String.mk ('a' :: (List.replicate 1500 ' ' ++ ['b']))).length := by
  refine ⟨rfl, by decide, by decide, by decide, ?_⟩
  show 1000 < ('a' :: (List.replicate 1500 ' ' ++ ['b'])).length
  simp

set_option maxRecDepth 40000 in
theorem C9_amended_bounded_status_truncation_witness :
    pyCollapse ("ab" : String).data = ("ab" : String).data ∧
    ("ab" : String).length ≤ 1000 ∧
    JobInfo.storedStatus "ab" = "ab" ∧
    (JobInfo.storedStatus "ab").length ≤ 1000 ∧
    1000 < (pyCollapse (String.mk (List.replicate 1001 'a')).data).length ∧
    (∃ pre, (JobInfo.storedStatus
      (String.mk (List.replicate 1001 'a'))).data =
        pre ++ truncationPlaceholder) := by
  have hbig : 1000 <
      (pyCollapse (String.mk (List.replicate 1001 'a')).data).length := by
    decide
  exact ⟨rfl, by decide, (C9_amended_bounded_status_truncation "ab").2.2 rfl (by decide),
    (C9_amended_bounded_status_truncation "ab").1, hbig,
    (C9_amended_bounded_status_truncation (String.mk (List.replicate 1001 'a'))).2.1 hbig⟩
